import Mathlib

/-!
Verification of the scene-data-loader batching and sampling contract of the
gpudrive tutorial repository. The tutorial script
`examples/tutorials/01_scenario_loading.py` constructs a `SceneDataLoader`
with a root path, `batch_size`, `dataset_size`, `sample_with_replacement`,
`seed` and `shuffle`, inspects `data_loader.dataset`, and pulls batches via
the iteration protocol (`next(iter(data_loader))`). The loader implementation
itself is external to the visible sources, so it is modelled here from the
specification (spec.md sections 3, 4.1, 7): catalog enumeration truncated to
`dataset_size`, a seeded pseudo-random generator, uniform sampling with
replacement, consecutive-group iteration without replacement, configuration
errors at construction, and a restart (new-epoch) policy.
-/

/-- Modelled from the spec: one linear-congruential step of the seeded
pseudo-random generator the loader owns (spec.md section 3, Loader State).
The exact generator is unspecified; any deterministic integer map works. -/
def lcgNext (s : Nat) : Nat := (s * 1103515245 + 12345) % 2147483648

/-- Modelled from the spec: draw `k` indices below `n` from the seeded
generator, returning the indices and the advanced generator state. -/
def sampleIdxs : Nat → Nat → Nat → List Nat × Nat
  | 0, _, rng => ([], rng)
  | k + 1, n, rng =>
    let r := lcgNext rng
    let rest := sampleIdxs k n r
    ((r % n) :: rest.1, rest.2)

/-- Modelled from the spec: a deterministic seeded shuffle (one-time shuffle
using the seed, spec.md section 4.1). Repeatedly picks a position from the
generator and moves that element to the front of the result. -/
def shuffleFuel : Nat → Nat → List String → List String × Nat
  | 0, rng, xs => (xs, rng)
  | _ + 1, rng, [] => ([], rng)
  | f + 1, rng, x :: xs =>
    let ys := x :: xs
    let r := lcgNext rng
    let i := r % ys.length
    let rest := ys.take i ++ ys.drop (i + 1)
    let tl := shuffleFuel f r rest
    (ys.getD i "" :: tl.1, tl.2)

/-- Modelled from the spec: seeded shuffle of a whole list. -/
def seededShuffle (rng : Nat) (xs : List String) : List String × Nat :=
  shuffleFuel xs.length rng xs

/-- Modelled from the spec: the immutable sampling configuration set at
construction (spec.md section 3, Sampling Configuration). `root` stands for
the deterministic enumeration of the scenario files under the root location. -/
structure SceneConfig where
  root : List String
  batch_size : Nat
  dataset_size : Nat
  sample_with_replacement : Bool
  seed : Nat
  shuffle : Bool
deriving DecidableEq

/-- Modelled from the spec: the configuration errors raised at construction
(spec.md section 7). -/
inductive ConfigError where
  | emptyRoot : ConfigError
  | nonPositiveBatch : ConfigError
  | nonPositiveDataset : ConfigError
  | infeasiblePartition : ConfigError
deriving DecidableEq

/-- Modelled from the spec: the loader state (spec.md section 3, Loader
State): the realized catalog (`dataset`, matching the inspection accessor
`data_loader.dataset` used by the tutorial), the configured batch size and
flags, the iteration order, the generator state and the cursor. -/
structure SceneDataLoader where
  dataset : List String
  batch_size : Nat
  sample_with_replacement : Bool
  shuffle : Bool
  order : List String
  rng : Nat
  cursor : Nat
deriving DecidableEq

instance : Inhabited SceneDataLoader :=
  ⟨⟨[], 0, false, false, [], 0, 0⟩⟩

/-- Modelled from the spec: the iteration order realized at construction:
the catalog after the optional one-time seeded shuffle (applied only in
non-replacement mode, where order matters), paired with the generator state
after construction. -/
def initOrder (cfg : SceneConfig) : List String × Nat :=
  if cfg.shuffle ∧ cfg.sample_with_replacement = false
  then seededShuffle cfg.seed (cfg.root.take cfg.dataset_size)
  else (cfg.root.take cfg.dataset_size, cfg.seed)

/-- Modelled from the spec: loader construction (spec.md section 4.1,
Construction contract). Fails with a configuration error on an empty root, a
non-positive batch or dataset size, or an infeasible partition (batch larger
than the realized catalog without replacement); otherwise enumerates the
catalog as the first `dataset_size` entries of the root enumeration, applies
the optional one-time seeded shuffle, and starts the cursor at zero. -/
def SceneDataLoader.init (cfg : SceneConfig) : Except ConfigError SceneDataLoader :=
  if cfg.root.isEmpty then Except.error ConfigError.emptyRoot
  else if cfg.batch_size = 0 then Except.error ConfigError.nonPositiveBatch
  else if cfg.dataset_size = 0 then Except.error ConfigError.nonPositiveDataset
  else if cfg.sample_with_replacement = false ∧
          (cfg.root.take cfg.dataset_size).length < cfg.batch_size then
    Except.error ConfigError.infeasiblePartition
  else
    Except.ok
      { dataset := cfg.root.take cfg.dataset_size
        batch_size := cfg.batch_size
        sample_with_replacement := cfg.sample_with_replacement
        shuffle := cfg.shuffle
        order := (initOrder cfg).1
        rng := (initOrder cfg).2
        cursor := 0 }

/-- Modelled from the spec: number of complete non-overlapping groups the
iteration order is partitioned into (spec.md section 4.1). -/
def SceneDataLoader.numGroups (l : SceneDataLoader) : Nat :=
  l.order.length / l.batch_size

/-- Modelled from the spec: one get-next-batch step (spec.md section 4.1,
Iteration contract). With replacement, draw `batch_size` identifiers from the
catalog with the seeded generator. Without replacement, emit the next
consecutive group of the iteration order, or signal exhaustion (`none`,
end-of-epoch) once every complete group has been emitted. -/
def SceneDataLoader.nextBatch (l : SceneDataLoader) :
    Option (List String × SceneDataLoader) :=
  if l.sample_with_replacement then
    let p := sampleIdxs l.batch_size l.dataset.length l.rng
    some (p.1.map (fun i => l.dataset.getD i ""), { l with rng := p.2 })
  else if l.cursor < l.numGroups then
    some ((l.order.drop (l.cursor * l.batch_size)).take l.batch_size,
          { l with cursor := l.cursor + 1 })
  else none

/-- Modelled from the spec: the restart (new-epoch) policy (spec.md section
4.1): the cursor resets, and when shuffle is enabled the order is reshuffled
deterministically from the advancing generator state. -/
def SceneDataLoader.restart (l : SceneDataLoader) : SceneDataLoader :=
  if l.shuffle then
    let p := seededShuffle l.rng l.order
    { l with order := p.1, rng := p.2, cursor := 0 }
  else { l with cursor := 0 }

/-- Modelled from the spec: `n` successive get-next-batch calls, returning
the batches in order and the final loader state, or `none` if any call
signalled exhaustion. -/
def SceneDataLoader.batchSeq (l : SceneDataLoader) :
    Nat → Option (List (List String) × SceneDataLoader)
  | 0 => some ([], l)
  | n + 1 =>
    match l.nextBatch with
    | none => none
    | some (b, l₁) =>
      match l₁.batchSeq n with
      | none => none
      | some (rest, l₂) => some (b :: rest, l₂)

/-- Modelled from the spec: the Ready state of the loader state machine
(spec.md section 4.1): a further get-next-batch call will succeed. -/
def SceneDataLoader.ready (l : SceneDataLoader) : Bool :=
  l.sample_with_replacement || decide (l.cursor < l.numGroups)

/-- Modelled from the spec: whether the loader is still Ready after `n`
get-next-batch calls (and all `n` calls succeeded). -/
def SceneDataLoader.readyAfter (l : SceneDataLoader) (n : Nat) : Bool :=
  match l.batchSeq n with
  | none => false
  | some p => p.2.ready

/-- The first batch a freshly constructed loader produces (the batch the
tutorial obtains as `next(iter(data_loader))`); empty if exhausted. -/
def SceneDataLoader.firstBatch (l : SceneDataLoader) : List String :=
  (l.nextBatch.getD ([], l)).1

/-- The loader state after the first get-next-batch call. -/
def SceneDataLoader.afterFirst (l : SceneDataLoader) : SceneDataLoader :=
  (l.nextBatch.getD ([], l)).2

/-- Element 0 of the first batch, if the first call yields a non-empty
batch (the tutorial accesses `data_files[0]`). -/
def SceneDataLoader.firstElem (l : SceneDataLoader) : Option String :=
  l.nextBatch.bind (fun p => p.1.head?)

/-- Extract the loader from a successful construction. -/
def ofOk (e : Except ConfigError SceneDataLoader) : SceneDataLoader :=
  match e with
  | Except.ok l => l
  | Except.error _ => default

/-- Modelled from the spec: the observable side effects of loader operations
(spec.md section 4.1, Side effects). -/
inductive Effect where
  | fsRead : Effect
  | fsWrite : Effect
  | network : Effect
deriving DecidableEq

/-- Modelled from the spec: construction performs exactly one filesystem
read, the enumeration of the files under root (spec.md section 4.1). -/
def initTrace (_cfg : SceneConfig) : List Effect := [Effect.fsRead]

/-- Modelled from the spec: a get-next-batch call touches no external
resource; batches are re-derived from in-memory state (spec.md sections 3
and 4.1): its effect trace is empty. -/
def fetchTrace (_l : SceneDataLoader) : List Effect := []

/-- The effect trace of `n` get-next-batch calls starting from `l`. -/
def runTrace (l : SceneDataLoader) : Nat → List Effect
  | 0 => []
  | n + 1 =>
    match l.nextBatch with
    | none => []
    | some (_, l₁) => fetchTrace l ++ runTrace l₁ n

/-- The effect trace of a whole loader lifetime: construction from `cfg`
yielding `l`, followed by `n` get-next-batch calls. -/
def lifetimeTrace (cfg : SceneConfig) (l : SceneDataLoader) (n : Nat) : List Effect :=
  initTrace cfg ++ runTrace l n

/-! ### Basic lemmas about the generator, shuffling and sampling -/

theorem shuffleFuel_length (f : Nat) :
    ∀ rng xs, (shuffleFuel f rng xs).1.length = xs.length := by
  induction f with
  | zero => intro rng xs; rfl
  | succ f ih =>
    intro rng xs
    cases xs with
    | nil => rfl
    | cons x xs =>
      have hlt : lcgNext rng % (xs.length + 1) < xs.length + 1 :=
        Nat.mod_lt _ (Nat.succ_pos _)
      simp only [shuffleFuel, List.length_cons]
      rw [ih]
      simp only [List.length_append, List.length_take, List.length_drop,
        List.length_cons]
      omega

theorem seededShuffle_length (rng : Nat) (xs : List String) :
    (seededShuffle rng xs).1.length = xs.length :=
  shuffleFuel_length xs.length rng xs

theorem sampleIdxs_length (k : Nat) :
    ∀ n rng, (sampleIdxs k n rng).1.length = k := by
  induction k with
  | zero => intro n rng; rfl
  | succ k ih =>
    intro n rng
    simp only [sampleIdxs, List.length_cons]
    rw [ih]

theorem sampleIdxs_lt (k : Nat) :
    ∀ n rng, 0 < n → ∀ i ∈ (sampleIdxs k n rng).1, i < n := by
  induction k with
  | zero => intro n rng _ i hi; simp [sampleIdxs] at hi
  | succ k ih =>
    intro n rng hn i hi
    simp only [sampleIdxs, List.mem_cons] at hi
    rcases hi with hi | hi
    · rw [hi]; exact Nat.mod_lt _ hn
    · exact ih n (lcgNext rng) hn i hi

theorem getD_mem_of_lt {xs : List String} {i : Nat} (h : i < xs.length)
    (d : String) : xs.getD i d ∈ xs := by
  rw [List.getD_eq_getElem xs d h]
  exact List.getElem_mem h

theorem initOrder_length (cfg : SceneConfig) :
    (initOrder cfg).1.length = (cfg.root.take cfg.dataset_size).length := by
  unfold initOrder
  split
  · exact seededShuffle_length _ _
  · rfl

/-! ### Inversion of construction -/

theorem init_ok {cfg : SceneConfig} {l : SceneDataLoader}
    (h : SceneDataLoader.init cfg = Except.ok l) :
    l.dataset = cfg.root.take cfg.dataset_size ∧
    l.batch_size = cfg.batch_size ∧
    l.sample_with_replacement = cfg.sample_with_replacement ∧
    l.shuffle = cfg.shuffle ∧
    l.cursor = 0 ∧
    l.order.length = l.dataset.length ∧
    0 < l.batch_size ∧
    0 < l.dataset.length ∧
    (cfg.sample_with_replacement = false → cfg.batch_size ≤ l.dataset.length) ∧
    (cfg.shuffle = false → l.order = l.dataset) := by
  unfold SceneDataLoader.init at h
  split at h
  · exact absurd h (by simp)
  split at h
  · exact absurd h (by simp)
  split at h
  · exact absurd h (by simp)
  split at h
  · exact absurd h (by simp)
  next hroot hbs hds hinf =>
  injection h with h
  subst h
  refine ⟨rfl, rfl, rfl, rfl, rfl, initOrder_length cfg, ?_, ?_, ?_, ?_⟩
  · exact Nat.pos_of_ne_zero hbs
  · have : cfg.root ≠ [] := by
      intro hemp
      exact hroot (by simp [hemp])
    have h1 : 0 < cfg.root.length := List.length_pos.mpr this
    simp only [List.length_take]
    have h2 : cfg.dataset_size ≠ 0 := hds
    omega
  · intro hrep
    show cfg.batch_size ≤ (cfg.root.take cfg.dataset_size).length
    by_contra hlt
    exact hinf ⟨hrep, by omega⟩
  · intro hsh
    show (initOrder cfg).1 = cfg.root.take cfg.dataset_size
    simp [initOrder, hsh]

/-! ### Lemmas about single get-next-batch calls -/

theorem nextBatch_length {l l' : SceneDataLoader} {b : List String}
    (h : l.nextBatch = some (b, l')) : b.length = l.batch_size := by
  unfold SceneDataLoader.nextBatch at h
  split at h
  · simp only [Option.some.injEq, Prod.mk.injEq] at h
    obtain ⟨hb, -⟩ := h
    rw [← hb]
    simp [sampleIdxs_length]
  · split at h
    next hc =>
      simp only [Option.some.injEq, Prod.mk.injEq] at h
      obtain ⟨hb, -⟩ := h
      rw [← hb]
      simp only [List.length_take, List.length_drop]
      unfold SceneDataLoader.numGroups at hc
      have h1 : l.cursor + 1 ≤ l.order.length / l.batch_size := hc
      have h2 : (l.cursor + 1) * l.batch_size ≤
          (l.order.length / l.batch_size) * l.batch_size :=
        Nat.mul_le_mul_right _ h1
      have h3 : (l.order.length / l.batch_size) * l.batch_size ≤ l.order.length :=
        Nat.div_mul_le_self _ _
      have h4 : (l.cursor + 1) * l.batch_size =
          l.cursor * l.batch_size + l.batch_size := by ring
      omega
    next => simp at h

theorem nextBatch_fields {l l' : SceneDataLoader} {b : List String}
    (h : l.nextBatch = some (b, l')) :
    l'.dataset = l.dataset ∧ l'.batch_size = l.batch_size ∧
    l'.sample_with_replacement = l.sample_with_replacement ∧
    l'.shuffle = l.shuffle ∧ l'.order = l.order := by
  unfold SceneDataLoader.nextBatch at h
  split at h
  · simp only [Option.some.injEq, Prod.mk.injEq] at h
    obtain ⟨-, hl⟩ := h
    subst hl
    exact ⟨rfl, rfl, rfl, rfl, rfl⟩
  · split at h
    · simp only [Option.some.injEq, Prod.mk.injEq] at h
      obtain ⟨-, hl⟩ := h
      subst hl
      exact ⟨rfl, rfl, rfl, rfl, rfl⟩
    · simp at h

theorem nextBatch_repl_eq {l : SceneDataLoader}
    (hrep : l.sample_with_replacement = true) :
    l.nextBatch = some
      ((sampleIdxs l.batch_size l.dataset.length l.rng).1.map
        (fun i => l.dataset.getD i ""),
       { l with rng := (sampleIdxs l.batch_size l.dataset.length l.rng).2 }) := by
  unfold SceneDataLoader.nextBatch
  rw [if_pos hrep]

theorem nextBatch_mem {l l' : SceneDataLoader} {b : List String}
    (hrep : l.sample_with_replacement = true) (hne : 0 < l.dataset.length)
    (h : l.nextBatch = some (b, l')) : ∀ x ∈ b, x ∈ l.dataset := by
  rw [nextBatch_repl_eq hrep] at h
  simp only [Option.some.injEq, Prod.mk.injEq] at h
  obtain ⟨hb, -⟩ := h
  rw [← hb]
  intro x hx
  simp only [List.mem_map] at hx
  obtain ⟨i, hi, hgx⟩ := hx
  have hlt : i < l.dataset.length :=
    sampleIdxs_lt l.batch_size l.dataset.length l.rng hne i hi
  rw [← hgx]
  exact getD_mem_of_lt hlt ""

theorem nextBatch_norepl {l l' : SceneDataLoader} {b : List String}
    (hrep : l.sample_with_replacement = false)
    (h : l.nextBatch = some (b, l')) :
    l.cursor < l.numGroups ∧
    b = (l.order.drop (l.cursor * l.batch_size)).take l.batch_size ∧
    l' = { l with cursor := l.cursor + 1 } := by
  unfold SceneDataLoader.nextBatch at h
  rw [if_neg (by simp [hrep])] at h
  split at h
  next hc =>
    simp only [Option.some.injEq, Prod.mk.injEq] at h
    exact ⟨hc, h.1.symm, h.2.symm⟩
  next => simp at h

theorem restart_noshuffle {l : SceneDataLoader} (hsh : l.shuffle = false) :
    l.restart = { l with cursor := 0 } := by
  unfold SceneDataLoader.restart
  rw [if_neg (by simp [hsh])]

/-! ### Lemmas about sequences of get-next-batch calls -/

theorem batchSeq_fields (n : Nat) :
    ∀ {l l' : SceneDataLoader} {p : List (List String)},
    SceneDataLoader.batchSeq l n = some (p, l') →
    l'.dataset = l.dataset ∧ l'.batch_size = l.batch_size ∧
    l'.sample_with_replacement = l.sample_with_replacement ∧
    l'.shuffle = l.shuffle ∧ l'.order = l.order := by
  induction n with
  | zero =>
    intro l l' p h
    simp only [SceneDataLoader.batchSeq, Option.some.injEq, Prod.mk.injEq] at h
    obtain ⟨-, hl⟩ := h
    subst hl
    exact ⟨rfl, rfl, rfl, rfl, rfl⟩
  | succ n ih =>
    intro l l' p h
    unfold SceneDataLoader.batchSeq at h
    split at h
    · simp at h
    next b l₁ hnb =>
      split at h
      · simp at h
      next rest l₂ hseq =>
        simp only [Option.some.injEq, Prod.mk.injEq] at h
        obtain ⟨-, hl⟩ := h
        subst hl
        obtain ⟨d1, b1, r1, s1, o1⟩ := nextBatch_fields hnb
        obtain ⟨d2, b2, r2, s2, o2⟩ := ih hseq
        exact ⟨d2.trans d1, b2.trans b1, r2.trans r1, s2.trans s1, o2.trans o1⟩

theorem batchSeq_length_all (n : Nat) :
    ∀ {l l' : SceneDataLoader} {p : List (List String)},
    SceneDataLoader.batchSeq l n = some (p, l') →
    ∀ b ∈ p, b.length = l.batch_size := by
  induction n with
  | zero =>
    intro l l' p h b hb
    simp only [SceneDataLoader.batchSeq, Option.some.injEq, Prod.mk.injEq] at h
    obtain ⟨hp, -⟩ := h
    rw [← hp] at hb
    simp at hb
  | succ n ih =>
    intro l l' p h b hb
    unfold SceneDataLoader.batchSeq at h
    split at h
    · simp at h
    next b₀ l₁ hnb =>
      split at h
      · simp at h
      next rest l₂ hseq =>
        simp only [Option.some.injEq, Prod.mk.injEq] at h
        obtain ⟨hp, -⟩ := h
        rw [← hp] at hb
        rcases List.mem_cons.mp hb with hb | hb
        · rw [hb]; exact nextBatch_length hnb
        · rw [ih hseq b hb]
          exact (nextBatch_fields hnb).2.1

theorem batchSeq_mem_dataset (n : Nat) :
    ∀ {l l' : SceneDataLoader} {p : List (List String)},
    l.sample_with_replacement = true → 0 < l.dataset.length →
    SceneDataLoader.batchSeq l n = some (p, l') →
    ∀ b ∈ p, ∀ x ∈ b, x ∈ l.dataset := by
  induction n with
  | zero =>
    intro l l' p hrep hne h b hb
    simp only [SceneDataLoader.batchSeq, Option.some.injEq, Prod.mk.injEq] at h
    obtain ⟨hp, -⟩ := h
    rw [← hp] at hb
    simp at hb
  | succ n ih =>
    intro l l' p hrep hne h b hb
    unfold SceneDataLoader.batchSeq at h
    split at h
    · simp at h
    next b₀ l₁ hnb =>
      split at h
      · simp at h
      next rest l₂ hseq =>
        simp only [Option.some.injEq, Prod.mk.injEq] at h
        obtain ⟨hp, -⟩ := h
        rw [← hp] at hb
        rcases List.mem_cons.mp hb with hb | hb
        · rw [hb]; exact nextBatch_mem hrep hne hnb
        · obtain ⟨d1, -, r1, -, -⟩ := nextBatch_fields hnb
          have hrep₁ : l₁.sample_with_replacement = true := r1.trans hrep
          have hne₁ : 0 < l₁.dataset.length := by rw [d1]; exact hne
          intro x hx
          have := ih hrep₁ hne₁ hseq b hb x hx
          rw [d1] at this
          exact this

theorem batchSeq_succ {l l₁ : SceneDataLoader} {b : List String} (n : Nat)
    (hnb : l.nextBatch = some (b, l₁)) :
    SceneDataLoader.batchSeq l (n + 1) =
      Option.map (fun q => (b :: q.1, q.2)) (SceneDataLoader.batchSeq l₁ n) := by
  cases hq : SceneDataLoader.batchSeq l₁ n with
  | none => simp [SceneDataLoader.batchSeq, hnb, hq]
  | some q =>
    obtain ⟨rest, l₂⟩ := q
    simp [SceneDataLoader.batchSeq, hnb, hq]

theorem batchSeq_repl_some (n : Nat) :
    ∀ l : SceneDataLoader, l.sample_with_replacement = true →
    ∃ p, SceneDataLoader.batchSeq l n = some p ∧
      p.2.sample_with_replacement = true := by
  induction n with
  | zero => intro l hrep; exact ⟨([], l), rfl, hrep⟩
  | succ n ih =>
    intro l hrep
    have hnb := nextBatch_repl_eq hrep
    obtain ⟨q, hseq, hrep'⟩ :=
      ih { l with rng := (sampleIdxs l.batch_size l.dataset.length l.rng).2 } hrep
    refine ⟨((sampleIdxs l.batch_size l.dataset.length l.rng).1.map
      (fun i => l.dataset.getD i "") :: q.1, q.2), ?_, hrep'⟩
    rw [batchSeq_succ n hnb, hseq]
    rfl

theorem batchSeq_norepl_state (n : Nat) :
    ∀ {l l' : SceneDataLoader} {p : List (List String)},
    l.sample_with_replacement = false →
    SceneDataLoader.batchSeq l n = some (p, l') →
    l' = { l with cursor := l.cursor + n } := by
  induction n with
  | zero =>
    intro l l' p hrep h
    simp only [SceneDataLoader.batchSeq, Option.some.injEq, Prod.mk.injEq] at h
    obtain ⟨-, hl⟩ := h
    subst hl
    rfl
  | succ n ih =>
    intro l l' p hrep h
    unfold SceneDataLoader.batchSeq at h
    split at h
    · simp at h
    next b l₁ hnb =>
      split at h
      · simp at h
      next rest l₂ hseq =>
        simp only [Option.some.injEq, Prod.mk.injEq] at h
        obtain ⟨-, hl⟩ := h
        subst hl
        obtain ⟨-, -, hl₁⟩ := nextBatch_norepl hrep hnb
        subst hl₁
        have hrep₁ :
            (SceneDataLoader.mk l.dataset l.batch_size l.sample_with_replacement
              l.shuffle l.order l.rng (l.cursor + 1)).sample_with_replacement
              = false := hrep
        have := ih hrep₁ hseq
        rw [this]
        congr 1
        show l.cursor + 1 + n = l.cursor + (n + 1)
        omega

theorem nextBatch_norepl_eq {l : SceneDataLoader}
    (hrep : l.sample_with_replacement = false) (hc : l.cursor < l.numGroups) :
    l.nextBatch = some
      ((l.order.drop (l.cursor * l.batch_size)).take l.batch_size,
       { l with cursor := l.cursor + 1 }) := by
  unfold SceneDataLoader.nextBatch
  rw [if_neg (by simp [hrep]), if_pos hc]

/-! ### Claim theorems and witnesses -/

def cfgC1 : SceneConfig :=
  ⟨["s00", "s01", "s02", "s03", "s04", "s05", "s06", "s07", "s08", "s09",
    "s10", "s11"], 10, 4, true, 42, true⟩

def loaderC1 : SceneDataLoader := ofOk (SceneDataLoader.init cfgC1)

/-- C1: for every validly configured loader, every batch produced by any
number of get-next-batch calls is a sequence of exactly `batch_size` file
identifiers. -/
theorem c1_batch_length {cfg : SceneConfig} {l l' : SceneDataLoader}
    {p : List (List String)} (hinit : SceneDataLoader.init cfg = Except.ok l)
    (n : Nat) (hseq : SceneDataLoader.batchSeq l n = some (p, l')) :
    ∀ b ∈ p, b.length = cfg.batch_size := by
  intro b hb
  rw [batchSeq_length_all n hseq b hb]
  exact (init_ok hinit).2.1

/-- C1 witness: a loader constructed with `batch_size = 10` yields a first
batch of exactly 10 entries. -/
theorem c1_batch_length_witness : loaderC1.firstBatch.length = 10 := by
  exact @c1_batch_length cfgC1 loaderC1 loaderC1.afterFirst
    [loaderC1.firstBatch] rfl 1 rfl loaderC1.firstBatch (by simp)

def cfgC2 : SceneConfig :=
  ⟨["a.json", "b.json", "c.json", "d.json", "e.json"], 3, 4, true, 7, true⟩

def loaderC2a : SceneDataLoader := ofOk (SceneDataLoader.init cfgC2)

def loaderC2b : SceneDataLoader := ofOk (SceneDataLoader.init cfgC2)

/-- C2: two loaders constructed independently from the same configuration
(same root enumeration, batch size, dataset size, replacement flag, seed and
shuffle flag) realize identical catalogs and produce identical batch
sequences for any equal number of fetch calls. -/
theorem c2_deterministic {cfg : SceneConfig} {l1 l2 : SceneDataLoader}
    (h1 : SceneDataLoader.init cfg = Except.ok l1)
    (h2 : SceneDataLoader.init cfg = Except.ok l2) :
    l1.dataset = l2.dataset ∧
    ∀ n, SceneDataLoader.batchSeq l1 n = SceneDataLoader.batchSeq l2 n := by
  have h := h1.symm.trans h2
  injection h with h
  subst h
  exact ⟨rfl, fun _ => rfl⟩

/-- C2 witness: two separately constructed loaders over the same
configuration agree on the catalog and on the first three batches. -/
theorem c2_deterministic_witness :
    loaderC2a.dataset = loaderC2b.dataset ∧
    SceneDataLoader.batchSeq loaderC2a 3 = SceneDataLoader.batchSeq loaderC2b 3 := by
  have h := @c2_deterministic cfgC2 loaderC2a loaderC2b rfl rfl
  exact ⟨h.1, h.2 3⟩

def cfgC3 : SceneConfig :=
  ⟨["p.json", "q.json", "r.json", "s.json", "t.json", "u.json"],
   2, 4, true, 11, false⟩

def loaderC3 : SceneDataLoader := ofOk (SceneDataLoader.init cfgC3)

/-- C3: the realized catalog of every successfully constructed loader has
size at most the configured `dataset_size`, and with `dataset_size = 4` and
a root of at least 4 distinct files the catalog has exactly 4 distinct
identifiers. -/
theorem c3_catalog_bound {cfg : SceneConfig} {l : SceneDataLoader}
    (hinit : SceneDataLoader.init cfg = Except.ok l) :
    l.dataset.length ≤ cfg.dataset_size ∧
    (cfg.dataset_size = 4 → 4 ≤ cfg.root.length → cfg.root.Nodup →
      l.dataset.length = 4 ∧ l.dataset.Nodup) := by
  obtain ⟨hd, -⟩ := init_ok hinit
  constructor
  · rw [hd, List.length_take]
    omega
  · intro h4 hroot hnd
    constructor
    · rw [hd, h4, List.length_take]
      omega
    · rw [hd]
      exact (List.take_sublist _ _).nodup hnd

/-- C3 witness: with `dataset_size = 4` over a 6-file root the catalog is
bounded by 4 and consists of exactly 4 distinct identifiers. -/
theorem c3_catalog_bound_witness :
    loaderC3.dataset.length ≤ cfgC3.dataset_size ∧
    loaderC3.dataset.length = 4 ∧ loaderC3.dataset.Nodup := by
  have h := @c3_catalog_bound cfgC3 loaderC3 rfl
  exact ⟨h.1, h.2 rfl (by decide) (by decide)⟩

def cfgC4 : SceneConfig :=
  ⟨(List.range 1000).map (fun i => Nat.repr i), 10, 4, true, 42, true⟩

def loaderC4 : SceneDataLoader := ofOk (SceneDataLoader.init cfgC4)

/-- C4: with replacement enabled, every identifier appearing in any batch
produced by any number of get-next-batch calls is a member of the loader's
catalog. -/
theorem c4_closure {cfg : SceneConfig} {l l' : SceneDataLoader}
    {p : List (List String)} (hinit : SceneDataLoader.init cfg = Except.ok l)
    (hrep : cfg.sample_with_replacement = true) (n : Nat)
    (hseq : SceneDataLoader.batchSeq l n = some (p, l')) :
    ∀ b ∈ p, ∀ x ∈ b, x ∈ l.dataset := by
  obtain ⟨-, -, hr, -, -, -, -, hne, -, -⟩ := init_ok hinit
  exact batchSeq_mem_dataset n (hr.trans hrep) hne hseq

set_option maxRecDepth 8000 in
/-- C4 witness: over a 1000-file root with `dataset_size = 4`,
`batch_size = 10`, replacement and seed 42, the first batch has 10 entries,
its entries come from the 4-identifier catalog (shown here for entry 0),
and it contains duplicates. -/
theorem c4_closure_witness :
    (loaderC4.firstBatch.getD 0 "") ∈ loaderC4.dataset ∧
    loaderC4.firstBatch.length = 10 ∧
    loaderC4.dataset.length = 4 ∧
    ¬ loaderC4.firstBatch.Nodup := by
  refine ⟨?_, by decide, by decide, by decide⟩
  exact @c4_closure cfgC4 loaderC4 loaderC4.afterFirst [loaderC4.firstBatch]
    rfl rfl 1 rfl loaderC4.firstBatch (by simp)
    (loaderC4.firstBatch.getD 0 "") (by decide)

def cfgC5 : SceneConfig := ⟨["a", "b", "c", "d", "e"], 10, 4, false, 42, false⟩

/-- C5: if `batch_size > dataset_size` and replacement is disabled,
construction fails with a configuration error: no loader is ever returned. -/
theorem c5_infeasible_rejected {cfg : SceneConfig}
    (hgt : cfg.dataset_size < cfg.batch_size)
    (hrep : cfg.sample_with_replacement = false) :
    ∀ l : SceneDataLoader, SceneDataLoader.init cfg ≠ Except.ok l := by
  intro l h
  unfold SceneDataLoader.init at h
  split at h
  · exact absurd h (by simp)
  split at h
  · exact absurd h (by simp)
  split at h
  · exact absurd h (by simp)
  split at h
  · exact absurd h (by simp)
  next hroot hbs hds hinf =>
    refine hinf ⟨hrep, ?_⟩
    have hle : (cfg.root.take cfg.dataset_size).length ≤ cfg.dataset_size := by
      rw [List.length_take]; omega
    omega

/-- C5 witness: `batch_size = 10`, `dataset_size = 4` without replacement is
rejected at construction with the infeasible-partition configuration error. -/
theorem c5_infeasible_rejected_witness :
    SceneDataLoader.init cfgC5 = Except.error ConfigError.infeasiblePartition ∧
    SceneDataLoader.init cfgC5 ≠ Except.ok default := by
  exact ⟨rfl, c5_infeasible_rejected (by decide) rfl default⟩

def cfgC6 : SceneConfig :=
  ⟨["m1", "m2", "m3"], 4, 2, true, 9, false⟩

def loaderC6 : SceneDataLoader := ofOk (SceneDataLoader.init cfgC6)

/-- C6: with replacement enabled the batch stream never signals exhaustion:
after any number of get-next-batch calls every call has succeeded and the
loader is still in the Ready state. -/
theorem c6_never_exhausted {cfg : SceneConfig} {l : SceneDataLoader}
    (hinit : SceneDataLoader.init cfg = Except.ok l)
    (hrep : cfg.sample_with_replacement = true) (n : Nat) :
    SceneDataLoader.readyAfter l n = true := by
  obtain ⟨-, -, hr, -⟩ := init_ok hinit
  obtain ⟨p, hseq, hrep'⟩ := batchSeq_repl_some n l (hr.trans hrep)
  unfold SceneDataLoader.readyAfter
  rw [hseq]
  simp [SceneDataLoader.ready, hrep']

/-- C6 witness: a replacement-mode loader is still Ready after five
successful fetches. -/
theorem c6_never_exhausted_witness :
    SceneDataLoader.readyAfter loaderC6 5 = true := by
  exact @c6_never_exhausted cfgC6 loaderC6 rfl rfl 5

def cfgC7 : SceneConfig :=
  ⟨["f1", "f2", "f3", "f4", "f5", "f6", "f7", "f8"], 4, 8, false, 0, false⟩

def loaderC7 : SceneDataLoader := ofOk (SceneDataLoader.init cfgC7)

/-- C7: with `dataset_size = 8`, `batch_size = 4`, no replacement and no
shuffle, the first two batches are the catalog slices `[0:4]` and `[4:8]`:
together they cover the catalog in its original order, and they do not
overlap when the root files are distinct. -/
theorem c7_ordered_partition {cfg : SceneConfig} {l : SceneDataLoader}
    (hinit : SceneDataLoader.init cfg = Except.ok l)
    (hds : cfg.dataset_size = 8) (hbs : cfg.batch_size = 4)
    (hrep : cfg.sample_with_replacement = false) (hsh : cfg.shuffle = false)
    (hroot : 8 ≤ cfg.root.length) :
    SceneDataLoader.batchSeq l 2 =
      some ([l.dataset.take 4, (l.dataset.drop 4).take 4],
            { l with cursor := 2 }) ∧
    l.dataset.take 4 ++ (l.dataset.drop 4).take 4 = l.dataset ∧
    (cfg.root.Nodup →
      ∀ x ∈ l.dataset.take 4, x ∉ (l.dataset.drop 4).take 4) := by
  obtain ⟨hd, hb, hr, -, hcur, -, -, -, -, hord⟩ := init_ok hinit
  have hord' := hord hsh
  have hdlen : l.dataset.length = 8 := by
    rw [hd, hds, List.length_take]
    omega
  have hrl : l.sample_with_replacement = false := by rw [hr, hrep]
  have hbl : l.batch_size = 4 := by rw [hb, hbs]
  obtain ⟨D, B, R, S, O, G, C⟩ := l
  have hB : B = 4 := hbl
  have hR : R = false := hrl
  have hC : C = 0 := hcur
  have hO : O = D := hord'
  have hD : D.length = 8 := hdlen
  have hD' : D = cfg.root.take 8 := by rw [← hds]; exact hd
  subst hB
  subst hR
  subst hC
  subst hO
  have hng : (SceneDataLoader.mk O 4 false S O G 0).numGroups = 2 := by
    show O.length / 4 = 2
    rw [hD]
  have hnb1 : (SceneDataLoader.mk O 4 false S O G 0).nextBatch =
      some (O.take 4, SceneDataLoader.mk O 4 false S O G 1) :=
    @nextBatch_norepl_eq (SceneDataLoader.mk O 4 false S O G 0) rfl
      (by show (0 : Nat) < (SceneDataLoader.mk O 4 false S O G 0).numGroups
          rw [hng]
          omega)
  have hnb2 : (SceneDataLoader.mk O 4 false S O G 1).nextBatch =
      some ((O.drop 4).take 4, SceneDataLoader.mk O 4 false S O G 2) :=
    @nextBatch_norepl_eq (SceneDataLoader.mk O 4 false S O G 1) rfl
      (by show (1 : Nat) < (SceneDataLoader.mk O 4 false S O G 1).numGroups
          rw [show (SceneDataLoader.mk O 4 false S O G 1).numGroups = 2 from hng]
          omega)
  have hseq : SceneDataLoader.batchSeq (SceneDataLoader.mk O 4 false S O G 0) 2 =
      some ([O.take 4, (O.drop 4).take 4],
            SceneDataLoader.mk O 4 false S O G 2) := by
    rw [batchSeq_succ 1 hnb1, batchSeq_succ 0 hnb2]
    rfl
  have htk : (O.drop 4).take 4 = O.drop 4 := by
    apply List.take_of_length_le
    rw [List.length_drop, hD]
  have hcover : O.take 4 ++ (O.drop 4).take 4 = O := by
    rw [htk, List.take_append_drop]
  refine ⟨hseq, hcover, ?_⟩
  intro hnd x hx1 hx2
  have hdnd : O.Nodup := by
    rw [hD']
    exact (List.take_sublist _ _).nodup hnd
  rw [← hcover] at hdnd
  exact (List.nodup_append.mp hdnd).2.2 hx1 hx2

/-- C7 witness: over an 8-file root with `dataset_size = 8`,
`batch_size = 4`, no replacement and no shuffle, the first two batches are
the two ordered catalog halves, they reassemble the catalog, and the first
file does not reappear in the second batch. -/
theorem c7_ordered_partition_witness :
    SceneDataLoader.batchSeq loaderC7 2 =
      some ([loaderC7.dataset.take 4, (loaderC7.dataset.drop 4).take 4],
            { loaderC7 with cursor := 2 }) ∧
    loaderC7.dataset.take 4 ++ (loaderC7.dataset.drop 4).take 4 =
      loaderC7.dataset ∧
    "f1" ∉ (loaderC7.dataset.drop 4).take 4 := by
  have h := @c7_ordered_partition cfgC7 loaderC7 rfl rfl rfl rfl rfl (by decide)
  exact ⟨h.1, h.2.1, h.2.2 (by decide) "f1" (by decide)⟩

def cfgC8 : SceneConfig := ⟨["w", "x", "y", "z"], 2, 4, false, 5, false⟩

def loaderC8 : SceneDataLoader := ofOk (SceneDataLoader.init cfgC8)

def loaderC8end : SceneDataLoader :=
  ((SceneDataLoader.batchSeq loaderC8 2).getD ([], loaderC8)).2

/-- C8: with replacement disabled and shuffle disabled, restarting after any
run of successful fetches reproduces exactly the batch sequence of the first
pass, so every full pass yields the same ordered partition of the catalog. -/
theorem c8_repeatable_epochs {cfg : SceneConfig} {l l' : SceneDataLoader}
    {p : List (List String)} (hinit : SceneDataLoader.init cfg = Except.ok l)
    (hrep : cfg.sample_with_replacement = false) (hsh : cfg.shuffle = false)
    (n : Nat) (hseq : SceneDataLoader.batchSeq l n = some (p, l')) (m : Nat) :
    SceneDataLoader.batchSeq l'.restart m = SceneDataLoader.batchSeq l m := by
  obtain ⟨-, -, hr, hs, hcur, -⟩ := init_ok hinit
  have hrl : l.sample_with_replacement = false := by rw [hr, hrep]
  have hsh' : l'.shuffle = false := by
    rw [(batchSeq_fields n hseq).2.2.2.1, hs, hsh]
  have hl' := batchSeq_norepl_state n hrl hseq
  rw [restart_noshuffle hsh', hl']
  obtain ⟨D, B, R, S, O, G, C⟩ := l
  have hc : C = 0 := hcur
  subst hc
  rfl

/-- C8 witness: after one full two-batch pass over a four-file catalog
without shuffle, a restart reproduces the same two batches. -/
theorem c8_repeatable_epochs_witness :
    SceneDataLoader.batchSeq loaderC8end.restart 2 =
      SceneDataLoader.batchSeq loaderC8 2 := by
  exact @c8_repeatable_epochs cfgC8 loaderC8 loaderC8end
    [["w", "x"], ["y", "z"]] rfl rfl rfl 2 rfl 2

/-- C9: the effect trace of a whole loader lifetime is exactly the single
filesystem read performed by the catalog enumeration at construction:
get-next-batch calls contribute no effects, so fetching performs no
filesystem reads and the loader never writes or performs network input or
output. -/
theorem c9_effects (cfg : SceneConfig) (l : SceneDataLoader) (n : Nat) :
    lifetimeTrace cfg l n = [Effect.fsRead] ∧ runTrace l n = [] := by
  have hrun : ∀ m (l₀ : SceneDataLoader), runTrace l₀ m = [] := by
    intro m
    induction m with
    | zero => intro l₀; rfl
    | succ m ih =>
      intro l₀
      cases h : l₀.nextBatch with
      | none => simp [runTrace, h]
      | some q =>
        obtain ⟨b, l₁⟩ := q
        simp [runTrace, h, fetchTrace, ih]
  exact ⟨by simp [lifetimeTrace, initTrace, hrun], hrun n l⟩

def cfgC10 : SceneConfig := ⟨["g1", "g2", "g3"], 2, 2, false, 3, false⟩

def loaderC10 : SceneDataLoader := ofOk (SceneDataLoader.init cfgC10)

/-- C10: for every successfully constructed loader (whose batch size is at
least 1 as the claim assumes), the first get-next-batch call of the
iteration protocol succeeds and returns a non-empty batch, so element 0 of
the first batch exists. -/
theorem c10_first_element {cfg : SceneConfig} {l : SceneDataLoader}
    (hinit : SceneDataLoader.init cfg = Except.ok l)
    (_hbs : 1 ≤ cfg.batch_size) :
    l.nextBatch.isSome = true ∧ l.firstElem.isSome = true ∧
    0 < l.firstBatch.length := by
  obtain ⟨-, hb, hr, -, hcur, hlen, hbs0, -, hinf, -⟩ := init_ok hinit
  have hsome : ∃ b l₁, l.nextBatch = some (b, l₁) := by
    cases hrv : l.sample_with_replacement with
    | true => exact ⟨_, _, nextBatch_repl_eq hrv⟩
    | false =>
      have hle : l.batch_size ≤ l.order.length := by
        rw [hlen, hb]
        exact hinf (hr.symm.trans hrv)
      have hng : 1 ≤ l.numGroups := by
        unfold SceneDataLoader.numGroups
        exact (Nat.one_le_div_iff hbs0).mpr hle
      exact ⟨_, _, nextBatch_norepl_eq hrv (by rw [hcur]; omega)⟩
  obtain ⟨b, l₁, hnb⟩ := hsome
  have hblen : 0 < b.length := by
    rw [nextBatch_length hnb]
    exact hbs0
  refine ⟨?_, ?_, ?_⟩
  · rw [hnb]; rfl
  · unfold SceneDataLoader.firstElem
    rw [hnb]
    cases b with
    | nil => simp at hblen
    | cons x xs => rfl
  · unfold SceneDataLoader.firstBatch
    rw [hnb]
    exact hblen

/-- C10 witness: for a concrete loader with `batch_size = 2` the first fetch
succeeds, element 0 of the first batch exists, and the batch is non-empty. -/
theorem c10_first_element_witness :
    loaderC10.nextBatch.isSome = true ∧ loaderC10.firstElem.isSome = true ∧
    0 < loaderC10.firstBatch.length := by
  exact @c10_first_element cfgC10 loaderC10 rfl (by decide)
